import Mathlib

/-!
A shallow embedding of `music_organizer.py` (class `AudioOrganizer`) and proofs
about its file-processing pipeline: duplicate detection by content digest,
safe-zone random clip extraction, the retrying identification client,
target-path derivation, conflict-resolving move semantics, and run statistics.

Modelling conventions:
* Machine-independent data: file contents are abstract byte sequences
  (`List Nat`) or abstract content codes (`Nat`); the MD5 digest of
  `get_file_hash` is modelled as an injective digest, i.e. digest equality
  coincides with content equality.
* Exceptions are explicit: a Python function that may raise is modelled with
  `Except`; a `try/except` block is modelled by handling of the error value.
* External effects (the pydub decoder, the HTTP transport, the random number
  generator) are oracles passed in as data.
-/

namespace MusicOrganizer

/-- `ProcessingStats` dataclass: statistics for processing results. -/
structure ProcessingStats where
  total : Nat := 0
  success : Nat := 0
  failed : Nat := 0
  skipped : Nat := 0
  duplicates : Nat := 0
deriving Repr, DecidableEq

/-! ## sanitize_filename -/

/-- The characters `<>:"/\|?*` that `sanitize_filename` replaces with `_`. -/
def invalidChars : List Char := ['<', '>', ':', '"', '/', '\\', '|', '?', '*']

/-- One character of the sequential `name.replace(char, '_')` loop.  The nine
replacements commute and none of them produces an invalid character, so the
loop is a single map over the characters. -/
def replaceInvalidChar (c : Char) : Char :=
  if c ∈ invalidChars then '_' else c

/-- Scan for the closing delimiter: returns the remainder of the list just
after the first occurrence of `closeC`, or `none` when `closeC` never occurs.
This is the `[^)]*\)` part of the regular expression `\([^)]*\)`. -/
def dropThroughClose (closeC : Char) : List Char → Option (List Char)
  | [] => none
  | c :: rest => if c = closeC then some rest else dropThroughClose closeC rest

/-- `re.sub(r'\(([^)]*)\)', '', name)`-style removal (with `(`/`)` generalized
to `openC`/`closeC`): scanning left to right, each `openC` that is followed by
a later `closeC` is removed together with everything up to and including that
`closeC`; an `openC` with no matching `closeC` is kept verbatim.  The fuel
argument (always instantiated with the list length) makes the recursion
structural; fuel `0` is never reached when the fuel starts at the length. -/
def removeDelimitedAux (openC closeC : Char) : Nat → List Char → List Char
  | 0, l => l
  | _ + 1, [] => []
  | fuel + 1, c :: rest =>
    if c = openC then
      match dropThroughClose closeC rest with
      | some rest' => removeDelimitedAux openC closeC fuel rest'
      | none => c :: removeDelimitedAux openC closeC fuel rest
    else c :: removeDelimitedAux openC closeC fuel rest

/-- Removal of one kind of delimited substring, with enough fuel. -/
def removeDelimited (openC closeC : Char) (l : List Char) : List Char :=
  removeDelimitedAux openC closeC l.length l

/-- The character class stripped by `name.strip('. ')`. -/
def isDotOrSpace (c : Char) : Bool := c = '.' || c = ' '

/-- `name.strip('. ')`: remove leading and trailing dots and spaces. -/
def stripDotSpace (l : List Char) : List Char :=
  ((l.dropWhile isDotOrSpace).reverse.dropWhile isDotOrSpace).reverse

/-- `AudioOrganizer.sanitize_filename`: replace the invalid characters with
`_`, remove `(...)` and `[...]` substrings, strip leading/trailing dots and
spaces, truncate to 100 characters, and fall back to `"Unknown"` when the
result is empty (`return name or "Unknown"`). -/
def sanitize_filename (s : String) : String :=
  let l1 := s.toList.map replaceInvalidChar
  let l2 := removeDelimited '(' ')' l1
  let l3 := removeDelimited '[' ']' l2
  let l4 := stripDotSpace l3
  let l5 := l4.take 100
  if l5.isEmpty then "Unknown" else String.mk l5

/-! ## create_random_clip: the window selection -/

/-- The clip window `(clip_start, clip_end)` chosen by
`AudioOrganizer.create_random_clip`, as half-open millisecond offsets into the
track, after the pydub slice `audio[clip_start:clip_end]` clamps the end to
the track length.  `total` is `len(audio)` in milliseconds, `durSec` the
`duration` argument in seconds, and `r` an arbitrary natural representing the
draw of `random.randint(safe_start, max_start)`: the drawn start is
`safe_start + r % (max_start - safe_start + 1)`, which ranges over exactly the
inclusive interval `[safe_start, max_start]` as `r` ranges over `Nat`.
`int(total_duration * 0.15)` and `int(total_duration * 0.85)` are modelled as
the exact floors `total * 15 / 100` and `total * 85 / 100`; the binary
rounding of the literals `0.15`/`0.85` matches these floors on the
magnitudes the claims mention (in particular `total = 100000`).
`max(0, middle - duration * 500)` is truncated `Nat` subtraction. -/
def create_random_clip_window (total durSec : Nat) (r : Nat) : Nat × Nat :=
  if total < durSec * 1000 then (0, total)
  else
    let safeStart := total * 15 / 100
    let safeEnd := total * 85 / 100
    if safeEnd - safeStart < durSec * 1000 then
      let middle := total / 2
      let clipStart := middle - durSec * 500
      (clipStart, min (clipStart + durSec * 1000) total)
    else
      let maxStart := safeEnd - durSec * 1000
      let clipStart := safeStart + r % (maxStart - safeStart + 1)
      (clipStart, min (clipStart + durSec * 1000) total)

/-! ## identify_song -/

/-- The parts of one HTTP response that `identify_song` looks at:
`response.status_code`, whether the parsed body has `status == 'success'`,
and the body's `result` field (`none` models an absent or falsy value). -/
structure HttpResponse where
  statusCode : Nat
  jsonSuccess : Bool
  jsonResult : Option String
deriving Repr, DecidableEq

/-- What one call of `requests.post` does: deliver a response, raise
`requests.exceptions.Timeout`, or raise some other exception.  A body whose
JSON fails to parse is folded into `otherExn`, because `response.json()`
raising is handled by the same generic `except Exception` handler. -/
inductive TransportResult where
  | resp (r : HttpResponse)
  | timeoutExn
  | otherExn
deriving Repr, DecidableEq

/-- Python exceptions that can cross the attempt body of `identify_song`. -/
inductive PyExn where
  | timeout
  | other
deriving Repr, DecidableEq

/-- The loop body of `identify_song` for the attempt numbered
`retries - fuel` when `fuel` attempts remain (the top-level call passes
`fuel = retries`, so attempts are numbered `0, 1, ...`).  Returns the
function result (`Except` recording any uncaught exception) together with the
list of `time.sleep` durations performed, in order:
* fuel exhausted: the `for` loop ends, `return None`;
* status 200 with `status == 'success'` and a truthy `result`: return it;
  status 200 otherwise: return `None`;
* status 901: sleep `2 ** attempt` seconds and continue;
* every other status (900, 700, 500, 400, 300, default): return `None`;
* `Timeout` raised: if `attempt < retries - 1` sleep `2 ** attempt` and
  continue, otherwise fall through without sleeping (the loop then ends);
* any other exception raised: caught by `except Exception`, return `None`. -/
def identifySongAux (oracle : Nat → TransportResult) (retries : Nat) :
    Nat → Except PyExn (Option String) × List Nat
  | 0 => (Except.ok none, [])
  | fuel + 1 =>
    let attempt := retries - (fuel + 1)
    match oracle attempt with
    | TransportResult.resp r =>
      if r.statusCode = 200 then
        if r.jsonSuccess && r.jsonResult.isSome then (Except.ok r.jsonResult, [])
        else (Except.ok none, [])
      else if r.statusCode = 901 then
        let next := identifySongAux oracle retries fuel
        (next.1, 2 ^ attempt :: next.2)
      else (Except.ok none, [])
    | TransportResult.timeoutExn =>
      let next := identifySongAux oracle retries fuel
      if 0 < fuel then (next.1, 2 ^ attempt :: next.2) else (next.1, next.2)
    | TransportResult.otherExn => (Except.ok none, [])

/-- `AudioOrganizer.identify_song`: run up to `retries` attempts (default 3)
against the transport oracle. -/
def identify_song (oracle : Nat → TransportResult) (retries : Nat) :
    Except PyExn (Option String) × List Nat :=
  identifySongAux oracle retries retries

/-- Whether a transport outcome is a successful response carrying a result
payload, i.e. status 200, body status `'success'`, and a truthy `result`. -/
def isSuccessPayload : TransportResult → Bool
  | TransportResult.resp r => r.statusCode == 200 && r.jsonSuccess && r.jsonResult.isSome
  | _ => false

/-! ## create_folder_structure -/

/-- The fields of the API `result` dictionary that
`create_folder_structure` reads.  `artist`/`title`/`album` are `none` when
the key is absent (`dict.get` then yields its default).
`appleMusicAlbumName` stands for `song_info['apple_music'].get('albumName')`
when the `'apple_music'` key is present (`none` when the outer key or the
inner key is missing), and `spotifyAlbumName` likewise stands for
`song_info['spotify'].get('album', {}).get('name')`. -/
structure SongInfo where
  artist : Option String
  title : Option String
  appleMusicAlbumName : Option String
  spotifyAlbumName : Option String
  album : Option String
deriving Repr, DecidableEq

/-- Python truthiness of an optional string: present and non-empty. -/
def truthy : Option String → Bool
  | some a => a != ""
  | none => false

/-- A target path relative to the output folder: the directory components
(artist, then optionally album) and the file name. -/
structure TargetPath where
  components : List String
  filename : String
deriving Repr, DecidableEq

/-- `AudioOrganizer.create_folder_structure`: artist and title default via
`dict.get`, album is taken from the Apple Music nested `albumName`, then the
Spotify nested `album.name`, then the flat `album` field (each guarded by
truthiness), names are sanitized, and the album subfolder is added only when
the album value is non-empty after `strip()`.  `ext` is
`original_file.suffix`. -/
def create_folder_structure (s : SongInfo) (ext : String) : TargetPath :=
  let artist := sanitize_filename (s.artist.getD "Unknown Artist")
  let title := sanitize_filename (s.title.getD "Unknown Title")
  let album : Option String :=
    if truthy s.appleMusicAlbumName then s.appleMusicAlbumName
    else if truthy s.spotifyAlbumName then s.spotifyAlbumName
    else if truthy s.album then s.album
    else none
  let components :=
    match album with
    | some a => if a.trim != "" then [artist, sanitize_filename a] else [artist]
    | none => [artist]
  ⟨components, title ++ ext⟩

/-- The album-resolution rule exactly as the specification words it: consider
the first provider's nested album name, then the second provider's, then the
flat `album` field, and take the first non-empty one. -/
def album_resolution_spec (s : SongInfo) : Option String :=
  ([s.appleMusicAlbumName, s.spotifyAlbumName, s.album].filterMap id).find?
    (fun a => a != "")

/-- The target path exactly as the specification words it:
`outputRoot/artist[/album]/title.<original-extension>`, artist defaulting to
"Unknown Artist", title to "Unknown Title", the album resolved by
`album_resolution_spec`, and no album subdirectory when no album is resolved
or the resolved album is blank. -/
def target_path_spec (s : SongInfo) (ext : String) : TargetPath :=
  let artist := sanitize_filename (s.artist.getD "Unknown Artist")
  let title := sanitize_filename (s.title.getD "Unknown Title")
  match album_resolution_spec s with
  | some a =>
    if a.trim != "" then ⟨[artist, sanitize_filename a], title ++ ext⟩
    else ⟨[artist], title ++ ext⟩
  | none => ⟨[artist], title ++ ext⟩

/-! ## move_file -/

/-- File contents as byte sequences. -/
abbrev Content := List Nat

/-- A filesystem fragment: an association list from paths to contents
(first binding wins). -/
abbrev FS := List (String × Content)

/-- Look up the content stored at a path. -/
def fsGet (fs : FS) (p : String) : Option Content :=
  (fs.find? (fun e => e.1 == p)).map (fun e => e.2)

/-- `os.remove p`: drop every binding of `p`. -/
def fsErase (fs : FS) (p : String) : FS :=
  fs.filter (fun e => e.1 != p)

/-- Write content `c` at path `p` (the effect of `shutil.move` on the
target). -/
def fsSet (fs : FS) (p : String) (c : Content) : FS :=
  (p, c) :: fsErase fs p

/-- `AudioOrganizer.get_file_hash`, modelled as an injective digest of the
content: digest equality coincides with byte equality (MD5 collisions are
outside the model). -/
def get_file_hash (c : Content) : Content := c

/-- `AudioOrganizer.move_file` on the filesystem fragment holding `source`
and `target`.  Dry run: touch nothing, report success.  Existing target:
equal digests delete the source; otherwise the strictly larger file wins the
path, the other is deleted; both branches report success.  Missing source
makes the hashing or `shutil.move` raise, which the `except` turns into
`False` with the filesystem unchanged. -/
def move_file (dryRun : Bool) (fs : FS) (source target : String) : Bool × FS :=
  if dryRun then (true, fs)
  else
    match fsGet fs target with
    | some tc =>
      match fsGet fs source with
      | none => (false, fs)
      | some sc =>
        if get_file_hash sc = get_file_hash tc then (true, fsErase fs source)
        else if sc.length > tc.length then
          (true, fsSet (fsErase fs source) target sc)
        else (true, fsErase fs source)
    | none =>
      match fsGet fs source with
      | none => (false, fs)
      | some sc => (true, fsSet (fsErase fs source) target sc)

/-! ## process_file and organize_library -/

/-- A discovered audio file: its path, its extension (`Path.suffix`), and an
abstract code for its byte content (equal codes = byte-identical files; the
MD5 digest is modelled as the content code itself). -/
structure FileEnv where
  path : String
  ext : String
  content : Nat
deriving Repr, DecidableEq

/-- What `create_random_clip` does for a given source file:
* `decodeFail`: `AudioSegment.from_file` (or the slicing) raises before any
  temporary file exists; the `except` logs and returns `None`;
* `exportFail`: `tempfile.NamedTemporaryFile(delete=False)` creates the
  temporary file, then `clip.export` raises; the `except` logs and returns
  `None` — the temporary file is left on disk;
* `exportOk`: the clip is exported and its temporary path returned. -/
inductive ClipOutcome where
  | decodeFail
  | exportFail
  | exportOk
deriving Repr, DecidableEq

/-- The content-determined behaviour of the externals for one file:
`validate_audio_file`'s verdict, whether `get_file_hash` raises `IOError`,
the clip-creation outcome, the identification result, whether
`create_folder_structure`'s `mkdir` raises, and `move_file`'s verdict. -/
structure FileBehavior where
  valid : Bool
  hashExn : Bool
  clip : ClipOutcome
  identified : Option SongInfo
  resolveExn : Bool
  moveOk : Bool
deriving Repr, DecidableEq

/-- One entry of `self.processed_files`. -/
structure OrganizedEntry where
  original_path : String
  target_path : TargetPath
  artist : String
  title : String
  album : String
deriving Repr, DecidableEq

/-- The mutable per-run state of `AudioOrganizer` touched by `process_file`:
the keys of `self.file_hashes`, `self.processed_files`, `self.failed_files`,
the input paths deleted as duplicates by `os.remove`, the temporary clip
files currently existing on disk, and a counter generating fresh temporary
names. -/
structure PipelineState where
  fileHashes : List Nat
  processedFiles : List OrganizedEntry
  failedFiles : List String
  removedInputs : List String
  tempFiles : List Nat
  tempCounter : Nat
deriving Repr, DecidableEq

/-- The state at the start of a run. -/
def initState : PipelineState := ⟨[], [], [], [], [], 0⟩

/-- `AudioOrganizer.process_file` for one file, driven by the
content-determined behaviour `b`: validation, duplicate check against
`self.file_hashes` (removing the file unless dry run), digest recording,
clip creation, identification, path resolution and move, with the
`try/finally` deleting the temporary clip on every path that created one and
got its path back.  The `Except` result is `ok success` for a normal return
and `error ()` when an exception escapes to `organize_library`. -/
def process_file (dryRun : Bool) (f : FileEnv) (b : FileBehavior)
    (st : PipelineState) : Except Unit Bool × PipelineState :=
  if b.valid = false then
    (Except.ok false,
      ⟨st.fileHashes, st.processedFiles, st.failedFiles ++ [f.path],
        st.removedInputs, st.tempFiles, st.tempCounter⟩)
  else if b.hashExn then (Except.error (), st)
  else if f.content ∈ st.fileHashes then
    if dryRun then (Except.ok true, st)
    else
      (Except.ok true,
        ⟨st.fileHashes, st.processedFiles, st.failedFiles,
          st.removedInputs ++ [f.path], st.tempFiles, st.tempCounter⟩)
  else
    let st1 : PipelineState :=
      ⟨st.fileHashes ++ [f.content], st.processedFiles, st.failedFiles,
        st.removedInputs, st.tempFiles, st.tempCounter⟩
    match b.clip with
    | ClipOutcome.decodeFail =>
      (Except.ok false,
        ⟨st1.fileHashes, st1.processedFiles, st1.failedFiles ++ [f.path],
          st1.removedInputs, st1.tempFiles, st1.tempCounter⟩)
    | ClipOutcome.exportFail =>
      (Except.ok false,
        ⟨st1.fileHashes, st1.processedFiles, st1.failedFiles ++ [f.path],
          st1.removedInputs, st1.tempFiles ++ [st1.tempCounter],
          st1.tempCounter + 1⟩)
    | ClipOutcome.exportOk =>
      let t := st1.tempCounter
      let st2 : PipelineState :=
        ⟨st1.fileHashes, st1.processedFiles, st1.failedFiles,
          st1.removedInputs, st1.tempFiles ++ [t], st1.tempCounter + 1⟩
      match b.identified with
      | none =>
        (Except.ok false,
          ⟨st2.fileHashes, st2.processedFiles, st2.failedFiles ++ [f.path],
            st2.removedInputs, (st2.tempFiles).erase t, st2.tempCounter⟩)
      | some info =>
        if b.resolveExn then
          (Except.error (),
            ⟨st2.fileHashes, st2.processedFiles, st2.failedFiles,
              st2.removedInputs, (st2.tempFiles).erase t, st2.tempCounter⟩)
        else
          let target := create_folder_structure info f.ext
          if b.moveOk then
            (Except.ok true,
              ⟨st2.fileHashes,
                st2.processedFiles ++
                  [⟨f.path, target, info.artist.getD "Unknown",
                    info.title.getD "Unknown", info.album.getD ""⟩],
                st2.failedFiles, st2.removedInputs,
                (st2.tempFiles).erase t, st2.tempCounter⟩)
          else
            (Except.ok false,
              ⟨st2.fileHashes, st2.processedFiles, st2.failedFiles,
                st2.removedInputs, (st2.tempFiles).erase t, st2.tempCounter⟩)

/-- The per-file loop of `AudioOrganizer.organize_library`: each file's
processing increments `success` when `process_file` returns `True`, and
`failed` when it returns `False` or raises. -/
def organize_library_aux (dryRun : Bool) (beh : Nat → FileBehavior) :
    List FileEnv → ProcessingStats → PipelineState →
    ProcessingStats × PipelineState
  | [], stats, st => (stats, st)
  | f :: rest, stats, st =>
    match process_file dryRun f (beh f.content) st with
    | (Except.ok true, st') =>
      organize_library_aux dryRun beh rest
        ⟨stats.total, stats.success + 1, stats.failed, stats.skipped,
          stats.duplicates⟩ st'
    | (Except.ok false, st') =>
      organize_library_aux dryRun beh rest
        ⟨stats.total, stats.success, stats.failed + 1, stats.skipped,
          stats.duplicates⟩ st'
    | (Except.error _, st') =>
      organize_library_aux dryRun beh rest
        ⟨stats.total, stats.success, stats.failed + 1, stats.skipped,
          stats.duplicates⟩ st'

/-- `AudioOrganizer.organize_library`: `stats = ProcessingStats(total=len
(audio_files))`, then the sequential loop over the discovered files. -/
def organize_library (dryRun : Bool) (beh : Nat → FileBehavior)
    (files : List FileEnv) : ProcessingStats × PipelineState :=
  organize_library_aux dryRun beh files ⟨files.length, 0, 0, 0, 0⟩ initState

/-- The JSON document written by `AudioOrganizer.save_results`. -/
structure ResultsJson where
  stats : ProcessingStats
  processed_files : List OrganizedEntry
  failed_files : List String
deriving Repr, DecidableEq

/-- `AudioOrganizer.save_results`: serialize the final statistics and the
accumulated per-file lists. -/
def save_results (stats : ProcessingStats) (st : PipelineState) : ResultsJson :=
  ⟨stats, st.processedFiles, st.failedFiles⟩

/-! ## Concrete inputs used by the example theorems -/

/-- A song the service recognizes, with no album information. -/
def someSong : SongInfo := ⟨some "Artist", some "Title", none, none, none⟩

/-- Behaviour of a healthy, recognizable, movable file. -/
def okBehavior : FileBehavior :=
  ⟨true, false, ClipOutcome.exportOk, some someSong, false, true⟩

/-- Two byte-identical input files (content code 7). -/
def dupRunFiles : List FileEnv := [⟨"a.mp3", ".mp3", 7⟩, ⟨"b.mp3", ".mp3", 7⟩]

/-- Every content behaves like a healthy recognizable file. -/
def dupRunBehavior : Nat → FileBehavior := fun _ => okBehavior

/-- A file whose clip export raises after the temporary file was created. -/
def exportFailFile : FileEnv := ⟨"x.mp3", ".mp3", 3⟩

/-- Behaviour of `exportFailFile`: valid audio, but `clip.export` raises. -/
def exportFailBehavior : FileBehavior :=
  ⟨true, false, ClipOutcome.exportFail, none, false, true⟩

/-- A transport oracle that is rate limited on attempt 0 and successful with
a result payload on attempt 1. -/
def rateLimitedThenSuccess : Nat → TransportResult := fun a =>
  if a = 0 then TransportResult.resp ⟨901, false, none⟩
  else TransportResult.resp ⟨200, true, some "song"⟩

/-! ## Helper lemmas -/

/-- Erasing a fresh element appended at the end restores the list. -/
theorem erase_append_singleton {l : List Nat} {c : Nat} (h : c ∉ l) :
    (l ++ [c]).erase c = l := by
  rw [List.erase_append_right _ h, List.erase_cons_head, List.append_nil]

/-- How one step of the run loop changes the counters: `total`, `skipped` and
`duplicates` are never written after initialization, and each file adds
exactly one to `success + failed`. -/
theorem organize_library_aux_stats (dryRun : Bool) (beh : Nat → FileBehavior) :
    ∀ (files : List FileEnv) (stats : ProcessingStats) (st : PipelineState),
      (organize_library_aux dryRun beh files stats st).1.total = stats.total ∧
      (organize_library_aux dryRun beh files stats st).1.success +
          (organize_library_aux dryRun beh files stats st).1.failed =
        stats.success + stats.failed + files.length ∧
      (organize_library_aux dryRun beh files stats st).1.skipped = stats.skipped ∧
      (organize_library_aux dryRun beh files stats st).1.duplicates =
        stats.duplicates := by
  intro files
  induction files with
  | nil => intro stats st; simp [organize_library_aux]
  | cons f rest ih =>
    intro stats st
    rcases hpf : process_file dryRun f (beh f.content) st with ⟨e, st'⟩
    rcases e with e | b
    · have h := ih ⟨stats.total, stats.success, stats.failed + 1, stats.skipped,
        stats.duplicates⟩ st'
      simp only [organize_library_aux, hpf]
      refine ⟨h.1, ?_, h.2.2.1, h.2.2.2⟩
      rw [h.2.1]; simp; omega
    · cases b
      · have h := ih ⟨stats.total, stats.success, stats.failed + 1, stats.skipped,
          stats.duplicates⟩ st'
        simp only [organize_library_aux, hpf]
        refine ⟨h.1, ?_, h.2.2.1, h.2.2.2⟩
        rw [h.2.1]; simp; omega
      · have h := ih ⟨stats.total, stats.success + 1, stats.failed, stats.skipped,
          stats.duplicates⟩ st'
        simp only [organize_library_aux, hpf]
        refine ⟨h.1, ?_, h.2.2.1, h.2.2.2⟩
        rw [h.2.1]; simp; omega

/-! ## Claim theorems -/

/-- C1: among byte-identical input files the code keeps only the first one:
the later one is removed from disk, its processing returns success, and it is
neither counted as a failure nor appended to `failed_files` — but, contrary
to the claim, it is **not** counted in the `duplicates` counter: the run over
two byte-identical valid files ends with `success = 2`, `failed = 0` and
`duplicates = 0`, the second file deleted, and an empty failure list.  The
`duplicates` field exists, is serialized by `save_results` and is printed as
"Duplicates handled" by `main`, yet no code path increments it. -/
theorem claim_C1_duplicate_run_eval :
    organize_library false dupRunBehavior dupRunFiles =
      (⟨2, 2, 0, 0, 0⟩,
        ⟨[7],
          [⟨"a.mp3", ⟨["Artist"], "Title.mp3"⟩, "Artist", "Title", ""⟩],
          [], ["b.mp3"], [], 1⟩) := by
  decide

/-- C2 (counterexample): when `clip.export` raises after
`tempfile.NamedTemporaryFile(delete=False)` has already created the
temporary file, `create_random_clip` catches the exception and returns
`None`, and `process_file` returns with the temporary clip file (here file
`0`) still on disk — a clip artifact leaks, contradicting the claim that no
clip file ever leaks on any exit path. -/
theorem claim_C2_export_failure_leaks_clip :
    (process_file false exportFailFile exportFailBehavior initState).1 =
        Except.ok false ∧
      (process_file false exportFailFile exportFailBehavior initState).2.tempFiles
        = [0] ∧
      initState.tempFiles = [] :=
  ⟨rfl, rfl, rfl⟩

/-- C2 (amended): every temporary clip whose creation completes (so that
`create_random_clip` hands its path back to `process_file`) is deleted by the
`finally` block on every exit path — identification success, identification
returning null, an exception during path resolution, and move failure — and
paths that never create a clip leave no artifact either; only the path where
`clip.export` raises after the temporary file was created leaks it.  The
second hypothesis says the temporary-name counter is fresh, as it is in any
reachable state. -/
theorem claim_C2_clip_always_deleted_unless_export_fails :
    ∀ (dryRun : Bool) (f : FileEnv) (b : FileBehavior) (st : PipelineState),
      b.clip ≠ ClipOutcome.exportFail →
      (∀ x ∈ st.tempFiles, x < st.tempCounter) →
      (process_file dryRun f b st).2.tempFiles = st.tempFiles := by
  intro dryRun f b st hclip hbound
  have hnotmem : st.tempCounter ∉ st.tempFiles := fun hx =>
    absurd (hbound _ hx) (lt_irrefl _)
  have herase : (st.tempFiles ++ [st.tempCounter]).erase st.tempCounter =
      st.tempFiles := erase_append_singleton hnotmem
  obtain ⟨bv, bh, bc, bi, br, bm⟩ := b
  cases bc with
  | exportFail => exact absurd rfl hclip
  | decodeFail =>
    cases bv <;> cases bh <;> cases dryRun <;>
      by_cases hmem : f.content ∈ st.fileHashes <;>
      simp_all [process_file, herase]
  | exportOk =>
    cases bv <;> cases bh <;> cases dryRun <;>
      by_cases hmem : f.content ∈ st.fileHashes <;>
      cases bi <;> cases br <;> cases bm <;>
      simp_all [process_file, herase]

/-- C2 (amended) witness at a concrete healthy file from the initial state:
the clip is created and deleted, so no temporary file remains. -/
theorem claim_C2_clip_deleted_witness :
    (process_file false (⟨"w.mp3", ".mp3", 9⟩ : FileEnv) okBehavior
        initState).2.tempFiles = initState.tempFiles :=
  claim_C2_clip_always_deleted_unless_export_fails false ⟨"w.mp3", ".mp3", 9⟩
    okBehavior initState (by decide) (by intro x hx; simp [initState] at hx)

/-- C5: writing `statsAfter n` for the statistics after the first `n` files
(the loop folded over the prefix), `success + failed` equals the number of
files processed so far, hence stays at most `total`, `total` is pinned to the
number of discovered files, and at completion `success + failed = total`:
each file's processing — a success return, a failure return, or an escaped
exception — increments exactly one of the two counters. -/
theorem claim_C5_success_failed_partition :
    ∀ (dryRun : Bool) (beh : Nat → FileBehavior) (files : List FileEnv)
      (n : Nat),
      (organize_library_aux dryRun beh (files.take n)
            ⟨files.length, 0, 0, 0, 0⟩ initState).1.success +
          (organize_library_aux dryRun beh (files.take n)
            ⟨files.length, 0, 0, 0, 0⟩ initState).1.failed =
        (files.take n).length ∧
      (organize_library_aux dryRun beh (files.take n)
            ⟨files.length, 0, 0, 0, 0⟩ initState).1.total = files.length ∧
      (files.take n).length ≤ files.length ∧
      (organize_library dryRun beh files).1.success +
          (organize_library dryRun beh files).1.failed =
        (organize_library dryRun beh files).1.total ∧
      (organize_library dryRun beh files).1.total = files.length := by
  intro dryRun beh files n
  have hpre := organize_library_aux_stats dryRun beh (files.take n)
    ⟨files.length, 0, 0, 0, 0⟩ initState
  have hall := organize_library_aux_stats dryRun beh files
    ⟨files.length, 0, 0, 0, 0⟩ initState
  refine ⟨?_, hpre.1, files.length_take_le' n, ?_, ?_⟩
  · rw [hpre.2.1]; simp
  · simp only [organize_library]
    rw [hall.2.1, hall.1]; simp
  · simp only [organize_library]
    exact hall.1

/-- C10: no operation of the run ever increments the `skipped` or
`duplicates` counters: they are `0` after initialization, after every file,
and at completion, so the manifest written by `save_results` always reports
`skipped = 0` and `duplicates = 0` no matter how many duplicate files were
detected and removed. -/
theorem claim_C10_skipped_duplicates_stay_zero :
    ∀ (dryRun : Bool) (beh : Nat → FileBehavior) (files : List FileEnv)
      (n : Nat),
      (organize_library_aux dryRun beh (files.take n)
          ⟨files.length, 0, 0, 0, 0⟩ initState).1.skipped = 0 ∧
      (organize_library_aux dryRun beh (files.take n)
          ⟨files.length, 0, 0, 0, 0⟩ initState).1.duplicates = 0 ∧
      (organize_library dryRun beh files).1.skipped = 0 ∧
      (organize_library dryRun beh files).1.duplicates = 0 ∧
      (save_results (organize_library dryRun beh files).1
          (organize_library dryRun beh files).2).stats.skipped = 0 ∧
      (save_results (organize_library dryRun beh files).1
          (organize_library dryRun beh files).2).stats.duplicates = 0 := by
  intro dryRun beh files n
  have hpre := organize_library_aux_stats dryRun beh (files.take n)
    ⟨files.length, 0, 0, 0, 0⟩ initState
  have hall := organize_library_aux_stats dryRun beh files
    ⟨files.length, 0, 0, 0, 0⟩ initState
  exact ⟨hpre.2.2.1, hpre.2.2.2, hall.2.2.1, hall.2.2.2, hall.2.2.1,
    hall.2.2.2⟩

/-- Unfolding a lookup one binding at a time. -/
theorem fsGet_cons (e : String × Content) (rest : FS) (q : String) :
    fsGet (e :: rest) q = if e.1 = q then some e.2 else fsGet rest q := by
  simp only [fsGet, List.find?]
  by_cases h : e.1 = q
  · simp [h]
  · have hb : (e.1 == q) = false := beq_eq_false_iff_ne.mpr h
    simp [hb, h]

/-- Unfolding a removal one binding at a time. -/
theorem fsErase_cons (e : String × Content) (rest : FS) (p : String) :
    fsErase (e :: rest) p =
      if e.1 = p then fsErase rest p else e :: fsErase rest p := by
  simp only [fsErase, List.filter]
  by_cases h : e.1 = p
  · simp [h]
  · have hb : (e.1 != p) = true := by simp [h]
    simp [hb, h]

/-- Pointwise description of `os.remove`. -/
theorem fsGet_fsErase (fs : FS) (p q : String) :
    fsGet (fsErase fs p) q = if q = p then none else fsGet fs q := by
  induction fs with
  | nil => simp [fsGet, fsErase]
  | cons e rest ih =>
    rw [fsErase_cons]
    by_cases hp : e.1 = p
    · rw [if_pos hp, ih, fsGet_cons]
      by_cases hq : q = p
      · simp [hq]
      · rw [if_neg hq, if_neg hq,
          if_neg (show ¬ e.1 = q from fun h => hq ((h.symm.trans hp)))]
    · rw [if_neg hp, fsGet_cons, fsGet_cons, ih]
      by_cases he : e.1 = q <;> by_cases hq : q = p <;> simp_all

/-- Pointwise description of writing a file. -/
theorem fsGet_fsSet (fs : FS) (p : String) (c : Content) (q : String) :
    fsGet (fsSet fs p c) q = if q = p then some c else fsGet fs q := by
  rw [fsSet, fsGet_cons]
  by_cases hq : q = p
  · simp [hq]
  · rw [if_neg (show ¬ (p, c).1 = q from fun h => hq h.symm), fsGet_fsErase,
      if_neg hq, if_neg hq]

/-- C6: moving onto an existing target (not in dry-run mode) always reports
success; equal digests delete the source and leave every other path — the
target included — untouched; different digests with a strictly larger source
replace the target's content with the source's and delete the source;
different digests otherwise (target larger or equal) keep the target and
delete the source. -/
theorem claim_C6_move_onto_existing_target :
    ∀ (fs : FS) (source target : String) (sc tc : Content),
      source ≠ target →
      fsGet fs source = some sc →
      fsGet fs target = some tc →
      (move_file false fs source target).1 = true ∧
      (sc = tc →
        fsGet (move_file false fs source target).2 source = none ∧
        ∀ q, q ≠ source →
          fsGet (move_file false fs source target).2 q = fsGet fs q) ∧
      (sc ≠ tc → sc.length > tc.length →
        fsGet (move_file false fs source target).2 target = some sc ∧
        fsGet (move_file false fs source target).2 source = none ∧
        ∀ q, q ≠ source → q ≠ target →
          fsGet (move_file false fs source target).2 q = fsGet fs q) ∧
      (sc ≠ tc → ¬ sc.length > tc.length →
        fsGet (move_file false fs source target).2 target = some tc ∧
        fsGet (move_file false fs source target).2 source = none ∧
        ∀ q, q ≠ source →
          fsGet (move_file false fs source target).2 q = fsGet fs q) := by
  intro fs source target sc tc hst hs ht
  by_cases heq : sc = tc
  · have hmf : move_file false fs source target = (true, fsErase fs source) := by
      simp [move_file, hs, ht, get_file_hash, heq]
    rw [hmf]
    refine ⟨rfl, fun _ => ⟨?_, fun q hq => ?_⟩, fun h => absurd heq h,
      fun h => absurd heq h⟩
    · rw [fsGet_fsErase, if_pos rfl]
    · rw [fsGet_fsErase, if_neg hq]
  · by_cases hlen : sc.length > tc.length
    · have hmf : move_file false fs source target =
          (true, fsSet (fsErase fs source) target sc) := by
        simp [move_file, hs, ht, get_file_hash, heq, hlen]
      rw [hmf]
      refine ⟨rfl, fun h => absurd h heq, fun _ _ => ⟨?_, ?_, fun q hqs hqt => ?_⟩,
        fun _ h => absurd hlen h⟩
      · rw [fsGet_fsSet, if_pos rfl]
      · rw [fsGet_fsSet, if_neg hst, fsGet_fsErase, if_pos rfl]
      · rw [fsGet_fsSet, if_neg hqt, fsGet_fsErase, if_neg hqs]
    · have hmf : move_file false fs source target = (true, fsErase fs source) := by
        simp [move_file, hs, ht, get_file_hash, heq, hlen]
      rw [hmf]
      refine ⟨rfl, fun h => absurd h heq, fun _ h => absurd h hlen,
        fun _ _ => ⟨?_, ?_, fun q hq => ?_⟩⟩
      · rw [fsGet_fsErase, if_neg (fun h => hst h.symm)]
        exact ht
      · rw [fsGet_fsErase, if_pos rfl]
      · rw [fsGet_fsErase, if_neg hq]

/-- C6 witness: a concrete conflict where the source is strictly larger;
the move reports success and the source's bytes now sit at the target. -/
theorem claim_C6_move_witness :
    (move_file false [("s", [1, 2]), ("t", [9])] "s" "t").1 = true ∧
    fsGet (move_file false [("s", [1, 2]), ("t", [9])] "s" "t").2 "t" =
      some [1, 2] := by
  have h := claim_C6_move_onto_existing_target [("s", [1, 2]), ("t", [9])]
    "s" "t" [1, 2] [9] (by decide) (by rfl) (by rfl)
  exact ⟨h.1, (h.2.2.1 (by decide) (by decide)).1⟩

/-- C7: the clip window of `create_random_clip`.  Writing `clipMs` for
`durSec * 1000`, `safeStart` for `total * 15 / 100` and `safeEnd` for
`total * 85 / 100`: a track shorter than the requested clip yields the whole
track; when the safe zone holds the clip, every random draw puts the start in
`[safeStart, safeEnd - clipMs]` and the window is exactly `clipMs` long and
ends inside the safe zone — in particular a 100000 ms track with a 10000 ms
clip always gets a 10000 ms window inside `[15000, 85000]`; when the safe
zone is narrower than the clip, the window is the `clipMs`-wide interval
centred on the track midpoint `total / 2`. -/
theorem claim_C7_clip_window :
    (∀ (total durSec r : Nat), total < durSec * 1000 →
      create_random_clip_window total durSec r = (0, total)) ∧
    (∀ (total durSec r : Nat), durSec * 1000 ≤ total →
      durSec * 1000 ≤ total * 85 / 100 - total * 15 / 100 →
      total * 15 / 100 ≤ (create_random_clip_window total durSec r).1 ∧
      (create_random_clip_window total durSec r).1 ≤
        total * 85 / 100 - durSec * 1000 ∧
      (create_random_clip_window total durSec r).2 =
        (create_random_clip_window total durSec r).1 + durSec * 1000 ∧
      (create_random_clip_window total durSec r).2 ≤ total * 85 / 100) ∧
    (∀ r : Nat,
      15000 ≤ (create_random_clip_window 100000 10 r).1 ∧
      (create_random_clip_window 100000 10 r).2 =
        (create_random_clip_window 100000 10 r).1 + 10000 ∧
      (create_random_clip_window 100000 10 r).2 ≤ 85000) ∧
    (∀ (total durSec r : Nat), durSec * 1000 ≤ total →
      total * 85 / 100 - total * 15 / 100 < durSec * 1000 →
      create_random_clip_window total durSec r =
        (total / 2 - durSec * 500, total / 2 + durSec * 500)) := by
  have hfull : ∀ (total durSec r : Nat), total < durSec * 1000 →
      create_random_clip_window total durSec r = (0, total) := by
    intro total durSec r h
    simp [create_random_clip_window, h]
  have hrand : ∀ (total durSec r : Nat), durSec * 1000 ≤ total →
      durSec * 1000 ≤ total * 85 / 100 - total * 15 / 100 →
      total * 15 / 100 ≤ (create_random_clip_window total durSec r).1 ∧
      (create_random_clip_window total durSec r).1 ≤
        total * 85 / 100 - durSec * 1000 ∧
      (create_random_clip_window total durSec r).2 =
        (create_random_clip_window total durSec r).1 + durSec * 1000 ∧
      (create_random_clip_window total durSec r).2 ≤ total * 85 / 100 := by
    intro total durSec r h1 h2
    have hmod := Nat.mod_lt r
      (show 0 < total * 85 / 100 - durSec * 1000 - total * 15 / 100 + 1 by omega)
    have hw : create_random_clip_window total durSec r =
        (total * 15 / 100 +
            r % (total * 85 / 100 - durSec * 1000 - total * 15 / 100 + 1),
          min (total * 15 / 100 +
              r % (total * 85 / 100 - durSec * 1000 - total * 15 / 100 + 1) +
              durSec * 1000) total) := by
      simp [create_random_clip_window, not_lt.2 h1, not_lt.2 h2]
    rw [hw, min_eq_left (by omega)]
    dsimp only
    refine ⟨by omega, by omega, rfl, by omega⟩
  have hmid : ∀ (total durSec r : Nat), durSec * 1000 ≤ total →
      total * 85 / 100 - total * 15 / 100 < durSec * 1000 →
      create_random_clip_window total durSec r =
        (total / 2 - durSec * 500, total / 2 + durSec * 500) := by
    intro total durSec r h1 h2
    have hw : create_random_clip_window total durSec r =
        (total / 2 - durSec * 500,
          min (total / 2 - durSec * 500 + durSec * 1000) total) := by
      simp [create_random_clip_window, not_lt.2 h1, h2]
    have harith : total / 2 - durSec * 500 + durSec * 1000 =
        total / 2 + durSec * 500 := by omega
    rw [hw, min_eq_left (by omega), harith]
  refine ⟨hfull, hrand, fun r => ?_, hmid⟩
  have h := hrand 100000 10 r (by norm_num) (by norm_num)
  exact ⟨h.1, h.2.2.1, h.2.2.2⟩

/-- C7 witness: the three regimes at concrete inputs — a 5000 ms track with
a 10 s clip yields the full track; a 100000 ms track puts the window inside
the safe zone; an 11000 ms track (safe zone 7700 ms, narrower than the clip)
yields the window centred on 5500 ms. -/
theorem claim_C7_clip_window_witness :
    create_random_clip_window 5000 10 0 = (0, 5000) ∧
    15000 ≤ (create_random_clip_window 100000 10 7).1 ∧
    create_random_clip_window 11000 10 4 = (500, 10500) := by
  refine ⟨claim_C7_clip_window.1 5000 10 0 (by norm_num),
    (claim_C7_clip_window.2.1 100000 10 7 (by norm_num) (by norm_num)).1, ?_⟩
  have h := claim_C7_clip_window.2.2.2 11000 10 4 (by norm_num) (by norm_num)
  rw [h]

/-- Characters surviving the close-delimiter scan come from the input. -/
theorem dropThroughClose_subset {c : Char} :
    ∀ {l l' : List Char}, dropThroughClose c l = some l' →
      ∀ x ∈ l', x ∈ l := by
  intro l
  induction l with
  | nil => intro l' h; simp [dropThroughClose] at h
  | cons a rest ih =>
    intro l' h x hx
    unfold dropThroughClose at h
    split at h
    · injection h with h
      exact List.mem_cons_of_mem _ (h ▸ hx)
    · exact List.mem_cons_of_mem _ (ih h x hx)

/-- Characters surviving delimited-substring removal come from the input. -/
theorem removeDelimitedAux_subset (o c : Char) :
    ∀ (fuel : Nat) (l : List Char),
      ∀ x ∈ removeDelimitedAux o c fuel l, x ∈ l := by
  intro fuel
  induction fuel with
  | zero => intro l x hx; simpa [removeDelimitedAux] using hx
  | succ n ih =>
    intro l x hx
    cases l with
    | nil => simp [removeDelimitedAux] at hx
    | cons a rest =>
      unfold removeDelimitedAux at hx
      by_cases hao : a = o
      · rw [if_pos hao] at hx
        cases hdc : dropThroughClose c rest with
        | some rest' =>
          rw [hdc] at hx
          exact List.mem_cons_of_mem _
            (dropThroughClose_subset hdc x (ih rest' x hx))
        | none =>
          rw [hdc] at hx
          rcases List.mem_cons.1 hx with h | h
          · exact h ▸ List.mem_cons_self a rest
          · exact List.mem_cons_of_mem _ (ih rest x h)
      · rw [if_neg hao] at hx
        rcases List.mem_cons.1 hx with h | h
        · exact h ▸ List.mem_cons_self a rest
        · exact List.mem_cons_of_mem _ (ih rest x h)

/-- Characters surviving `strip('. ')` come from the input. -/
theorem stripDotSpace_subset (l : List Char) :
    ∀ x ∈ stripDotSpace l, x ∈ l := by
  intro x hx
  unfold stripDotSpace at hx
  rw [List.mem_reverse] at hx
  have h1 := (List.dropWhile_sublist isDotOrSpace).mem hx
  rw [List.mem_reverse] at h1
  exact (List.dropWhile_sublist isDotOrSpace).mem h1

/-- After the replacement map, no invalid character remains. -/
theorem replaceInvalid_no_invalid (s : String) :
    ∀ x ∈ s.toList.map replaceInvalidChar, x ∉ invalidChars := by
  intro x hx
  rcases List.mem_map.1 hx with ⟨y, _, rfl⟩
  unfold replaceInvalidChar
  split
  · decide
  · assumption

/-- C8: `sanitize_filename` maps `"Song (Live) [Remix]"` to `"Song"`
(invalid-character replacement, parenthesized and bracketed substrings
removed, leading/trailing spaces and dots stripped); it returns `"Unknown"`
on an empty result; its output never exceeds 100 characters, is never the
empty string, and contains none of the characters it replaces. -/
theorem claim_C8_sanitize_filename :
    sanitize_filename "Song (Live) [Remix]" = "Song" ∧
    sanitize_filename "" = "Unknown" ∧
    (∀ s : String, (sanitize_filename s).length ≤ 100) ∧
    (∀ s : String, sanitize_filename s ≠ "") ∧
    (∀ (s : String) (ch : Char), ch ∈ invalidChars →
      ch ∉ (sanitize_filename s).toList) := by
  refine ⟨by decide, by decide, ?_, ?_, ?_⟩
  · intro s
    simp only [sanitize_filename]
    split
    · decide
    · show (String.mk _).length ≤ 100
      have : ∀ l : List Char, (String.mk l).length = l.length := fun l => rfl
      rw [this]
      exact List.length_take_le 100 _
  · intro s
    simp only [sanitize_filename]
    split
    · decide
    · intro hcontra
      have hdata : (stripDotSpace (removeDelimited '[' ']'
          (removeDelimited '(' ')'
            (s.toList.map replaceInvalidChar)))).take 100 = [] := by
        have := congrArg String.data hcontra
        simpa using this
      simp_all
  · intro s ch hch
    simp only [sanitize_filename]
    split
    · intro hmem
      fin_cases hch <;> simp_all
    · intro hmem
      have h1 : ch ∈ (stripDotSpace (removeDelimited '[' ']'
          (removeDelimited '(' ')' (s.toList.map replaceInvalidChar)))).take
            100 := hmem
      have h2 := List.take_subset 100 _ h1
      have h3 := stripDotSpace_subset _ _ h2
      have h4 := removeDelimitedAux_subset '[' ']' _ _ _ h3
      have h5 := removeDelimitedAux_subset '(' ')' _ _ _ h4
      exact replaceInvalid_no_invalid s _ h5 hch

/-- C8 witness: a replaced character never survives sanitization. -/
theorem claim_C8_sanitize_witness :
    '<' ∉ (sanitize_filename "a<b").toList :=
  claim_C8_sanitize_filename.2.2.2.2 "a<b" '<' (by decide)

/-- Every handler of `identify_song` resolves to a normal return: no attempt
count leaves the loop with an uncaught exception. -/
theorem identifySongAux_isOk (oracle : Nat → TransportResult) (retries : Nat) :
    ∀ fuel : Nat, ∃ v, (identifySongAux oracle retries fuel).1 = Except.ok v := by
  intro fuel
  induction fuel with
  | zero => exact ⟨none, rfl⟩
  | succ n ih =>
    unfold identifySongAux
    cases h : oracle (retries - (n + 1)) with
    | resp r =>
      by_cases h200 : r.statusCode = 200
      · by_cases hres : r.jsonSuccess = true ∧ r.jsonResult.isSome = true
        · exact ⟨r.jsonResult, by simp [h, h200, hres]⟩
        · exact ⟨none, by simp [h, h200, hres]⟩
      · by_cases h901 : r.statusCode = 901
        · obtain ⟨v, hv⟩ := ih
          exact ⟨v, by simp [h, h200, h901, hv]⟩
        · exact ⟨none, by simp [h, h200, h901]⟩
    | timeoutExn =>
      obtain ⟨v, hv⟩ := ih
      by_cases hfuel : 0 < n
      · exact ⟨v, by simp [h, hfuel, hv]⟩
      · exact ⟨v, by simp [h, hfuel, hv]⟩
    | otherExn => exact ⟨none, by simp [h]⟩

/-- A payload returned by the loop was delivered by a successful response
with body status success and that payload, at some attempt below the retry
bound. -/
theorem identifySongAux_payload (oracle : Nat → TransportResult)
    (retries : Nat) :
    ∀ (fuel : Nat) (p : String), fuel ≤ retries →
      (identifySongAux oracle retries fuel).1 = Except.ok (some p) →
      ∃ a, a < retries ∧ oracle a = TransportResult.resp ⟨200, true, some p⟩ := by
  intro fuel
  induction fuel with
  | zero => intro p _ h; simp [identifySongAux] at h
  | succ n ih =>
    intro p hle h
    have hlt : retries - (n + 1) < retries := by omega
    unfold identifySongAux at h
    cases horacle : oracle (retries - (n + 1)) with
    | resp r =>
      obtain ⟨sc, js, jr⟩ := r
      by_cases h200 : sc = 200
      · by_cases hres : js = true ∧ jr.isSome = true
        · simp [horacle, h200, hres] at h
          refine ⟨retries - (n + 1), hlt, ?_⟩
          rw [horacle, h200, hres.1, h]
        · simp [horacle, h200, hres] at h
      · by_cases h901 : sc = 901
        · simp [horacle, h200, h901] at h
          exact ih p (by omega) h
        · simp [horacle, h200, h901] at h
    | timeoutExn =>
      by_cases hfuel : 0 < n
      · simp [horacle, hfuel] at h
        exact ih p (by omega) h
      · simp [horacle, hfuel] at h
        exact ih p (by omega) h
    | otherExn =>
      simp [horacle] at h

/-- When no attempt below the bound carries a successful response with a
payload, the loop returns `None`. -/
theorem identifySongAux_none (oracle : Nat → TransportResult) (retries : Nat)
    (hnone : ∀ a, a < retries → isSuccessPayload (oracle a) = false) :
    ∀ fuel : Nat, fuel ≤ retries →
      (identifySongAux oracle retries fuel).1 = Except.ok none := by
  intro fuel
  induction fuel with
  | zero => intro _; rfl
  | succ n ih =>
    intro hle
    have hlt : retries - (n + 1) < retries := by omega
    have hfalse := hnone _ hlt
    unfold identifySongAux
    cases horacle : oracle (retries - (n + 1)) with
    | resp r =>
      obtain ⟨sc, js, jr⟩ := r
      rw [horacle] at hfalse
      simp only [isSuccessPayload] at hfalse
      by_cases h200 : sc = 200
      · have hres : ¬ (js = true ∧ jr.isSome = true) := by
          rintro ⟨hjs, hjr⟩
          rw [h200, hjs, hjr] at hfalse
          simp at hfalse
        simp [horacle, h200, hres]
      · by_cases h901 : sc = 901
        · have := ih (by omega)
          simp [horacle, h200, h901, this]
        · simp [horacle, h200, h901]
    | timeoutExn =>
      by_cases hfuel : 0 < n
      · have := ih (by omega)
        simp [horacle, hfuel, this]
      · have := ih (by omega)
        simp [horacle, hfuel, this]
    | otherExn => simp [horacle]

/-- C3: `identify_song` never lets an exception cross its boundary — for
every transport oracle its result is a normal return; when it returns a
payload, that payload came from a successful (status 200, body status
success, truthy result) response at some attempt; and when no attempt gets
such a response — any non-success status, success without result, exhausted
retries, timeouts, or other transport exceptions — it returns null. -/
theorem claim_C3_identify_song_total :
    ∀ (oracle : Nat → TransportResult) (retries : Nat),
      (∃ v, (identify_song oracle retries).1 = Except.ok v) ∧
      (∀ p : String, (identify_song oracle retries).1 = Except.ok (some p) →
        ∃ a, a < retries ∧
          oracle a = TransportResult.resp ⟨200, true, some p⟩) ∧
      ((∀ a, a < retries → isSuccessPayload (oracle a) = false) →
        (identify_song oracle retries).1 = Except.ok none) := by
  intro oracle retries
  exact ⟨identifySongAux_isOk oracle retries retries,
    fun p => identifySongAux_payload oracle retries retries p le_rfl,
    fun h => identifySongAux_none oracle retries h retries le_rfl⟩

/-- C3 witness: at concrete oracles the result is a normal return; a run of
pure timeouts resolves to null, and the rate-limited-then-success oracle's
payload is traced back to its successful response. -/
theorem claim_C3_identify_song_witness :
    (∃ v, (identify_song (fun _ => TransportResult.otherExn) 3).1 =
      Except.ok v) ∧
    (identify_song (fun _ => TransportResult.timeoutExn) 3).1 =
      Except.ok none ∧
    ∃ a, a < 3 ∧ rateLimitedThenSuccess a =
      TransportResult.resp ⟨200, true, some "song"⟩ := by
  refine ⟨(claim_C3_identify_song_total (fun _ => TransportResult.otherExn) 3).1,
    (claim_C3_identify_song_total (fun _ => TransportResult.timeoutExn) 3).2.2
      (fun a _ => rfl),
    (claim_C3_identify_song_total rateLimitedThenSuccess 3).2.1 "song" rfl⟩

/-- The loop only ever consults the oracle at attempt numbers below the
retry bound: two transports agreeing there yield identical results and
identical sleep sequences. -/
theorem identifySongAux_oracle_congr (oracle oracle' : Nat → TransportResult)
    (retries : Nat) (hagree : ∀ a, a < retries → oracle a = oracle' a) :
    ∀ fuel : Nat, fuel ≤ retries →
      identifySongAux oracle retries fuel =
        identifySongAux oracle' retries fuel := by
  intro fuel
  induction fuel with
  | zero => intro _; rfl
  | succ n ih =>
    intro hle
    have hlt : retries - (n + 1) < retries := by omega
    have hor := hagree _ hlt
    have hrec := ih (by omega)
    simp only [identifySongAux, hor, hrec]

/-- C4: the retry policy of `identify_song`.  (i) A response with a status
other than 200 and 901 ends the call at once with null, no retry, no sleep;
(ii) so does a 200 response without a success-plus-payload body; (iii) a 901
(rate-limited) response sleeps `2 ^ attempt` seconds and hands over to the
next attempt; (iv) a timeout with attempts left does the same; (v) a timeout
on the final attempt returns null without sleeping; (vi) the call depends on
the transport only at attempts below the `retries` bound; (vii) with the
default `retries = 3`, rate-limited on attempt 0 and successful on attempt 1,
the call returns the attempt-1 payload after a single 1-second
(`2 ^ 0`) backoff sleep. -/
theorem claim_C4_retry_backoff_policy :
    (∀ (oracle : Nat → TransportResult) (retries fuel : Nat)
      (r : HttpResponse),
      oracle (retries - (fuel + 1)) = TransportResult.resp r →
      r.statusCode ≠ 200 → r.statusCode ≠ 901 →
      identifySongAux oracle retries (fuel + 1) = (Except.ok none, [])) ∧
    (∀ (oracle : Nat → TransportResult) (retries fuel : Nat)
      (r : HttpResponse),
      oracle (retries - (fuel + 1)) = TransportResult.resp r →
      r.statusCode = 200 →
      ¬ (r.jsonSuccess = true ∧ r.jsonResult.isSome = true) →
      identifySongAux oracle retries (fuel + 1) = (Except.ok none, [])) ∧
    (∀ (oracle : Nat → TransportResult) (retries fuel : Nat)
      (r : HttpResponse),
      oracle (retries - (fuel + 1)) = TransportResult.resp r →
      r.statusCode = 901 →
      identifySongAux oracle retries (fuel + 1) =
        ((identifySongAux oracle retries fuel).1,
          2 ^ (retries - (fuel + 1)) ::
            (identifySongAux oracle retries fuel).2)) ∧
    (∀ (oracle : Nat → TransportResult) (retries fuel : Nat),
      oracle (retries - (fuel + 1)) = TransportResult.timeoutExn → 0 < fuel →
      identifySongAux oracle retries (fuel + 1) =
        ((identifySongAux oracle retries fuel).1,
          2 ^ (retries - (fuel + 1)) ::
            (identifySongAux oracle retries fuel).2)) ∧
    (∀ (oracle : Nat → TransportResult) (retries : Nat),
      oracle (retries - 1) = TransportResult.timeoutExn →
      identifySongAux oracle retries 1 = (Except.ok none, [])) ∧
    (∀ (oracle oracle' : Nat → TransportResult) (retries : Nat),
      (∀ a, a < retries → oracle a = oracle' a) →
      identify_song oracle retries = identify_song oracle' retries) ∧
    identify_song rateLimitedThenSuccess 3 = (Except.ok (some "song"), [1]) := by
  refine ⟨?_, ?_, ?_, ?_, ?_, ?_, rfl⟩
  · intro oracle retries fuel r h h200 h901
    simp [identifySongAux, h, h200, h901]
  · intro oracle retries fuel r h h200 hres
    simp [identifySongAux, h, h200, hres]
  · intro oracle retries fuel r h h901
    have h200 : ¬ r.statusCode = 200 := by omega
    simp [identifySongAux, h, h200, h901]
  · intro oracle retries fuel h hfuel
    simp [identifySongAux, h, hfuel]
  · intro oracle retries h
    simp [identifySongAux, h]
  · intro oracle oracle' retries hagree
    exact identifySongAux_oracle_congr oracle oracle' retries hagree retries
      le_rfl

/-- C4 witness: the retry policy applied at concrete transports — a 400
response and a 200-without-result response are terminal with no sleep, a
timeout on the last attempt returns null, the rate-limited first attempt of
the success scenario sleeps exactly 1 second, and the call ignores the
transport beyond the bound. -/
theorem claim_C4_retry_backoff_witness :
    identifySongAux (fun _ => TransportResult.resp ⟨400, false, none⟩) 3 3 =
      (Except.ok none, []) ∧
    identifySongAux (fun _ => TransportResult.resp ⟨200, true, none⟩) 3 3 =
      (Except.ok none, []) ∧
    identifySongAux (fun _ => TransportResult.timeoutExn) 3 1 =
      (Except.ok none, []) ∧
    identifySongAux rateLimitedThenSuccess 3 3 =
      ((identifySongAux rateLimitedThenSuccess 3 2).1,
        1 :: (identifySongAux rateLimitedThenSuccess 3 2).2) ∧
    identify_song rateLimitedThenSuccess 3 =
      identify_song
        (fun a => if a < 3 then rateLimitedThenSuccess a
          else TransportResult.otherExn) 3 := by
  refine ⟨claim_C4_retry_backoff_policy.1 _ 3 2 ⟨400, false, none⟩ rfl
      (by decide) (by decide),
    claim_C4_retry_backoff_policy.2.1 _ 3 2 ⟨200, true, none⟩ rfl rfl
      (by simp),
    claim_C4_retry_backoff_policy.2.2.2.2.1 _ 3 rfl, ?_, ?_⟩
  · have h := claim_C4_retry_backoff_policy.2.2.1 rateLimitedThenSuccess 3 2
      ⟨901, false, none⟩ rfl rfl
    simpa using h
  · exact claim_C4_retry_backoff_policy.2.2.2.2.2.1 rateLimitedThenSuccess _ 3
      (fun a ha => by simp [ha])

/-- C9: the resolved target path is exactly what the specification words
describe: `outputRoot/artist[/album]/title.<original-extension>`, with the
artist defaulting to "Unknown Artist" and the title to "Unknown Title" when
absent, the album taken from the first provider's nested album name, then
the second provider's, then the flat `album` field — first non-empty wins —
and no album subdirectory when no album is resolved or the resolved album
is blank. -/
theorem claim_C9_target_path_resolution :
    ∀ (s : SongInfo) (ext : String),
      create_folder_structure s ext = target_path_spec s ext := by
  intro s ext
  obtain ⟨ar, ti, ap, sp, al⟩ := s
  have hbne : ∀ x : String, ¬ x = "" → (x != "") = true := fun x h => by
    simp [h]
  simp only [create_folder_structure, target_path_spec, album_resolution_spec,
    truthy]
  cases ap with
  | some a =>
    by_cases ha : a = ""
    · cases sp with
      | some b =>
        by_cases hb : b = ""
        · cases al with
          | some c =>
            by_cases hc : c = ""
            · simp [ha, hb, hc, List.find?]
            · simp [ha, hb, hc, hbne c hc, List.find?]; try (split <;> rfl)
          | none => simp [ha, hb, List.find?]
        · simp [ha, hb, hbne b hb, List.find?]; try (split <;> rfl)
      | none =>
        cases al with
        | some c =>
          by_cases hc : c = ""
          · simp [ha, hc, List.find?]
          · simp [ha, hc, hbne c hc, List.find?]; try (split <;> rfl)
        | none => simp [ha, List.find?]
    · simp [ha, hbne a ha, List.find?]; try (split <;> rfl)
  | none =>
    cases sp with
    | some b =>
      by_cases hb : b = ""
      · cases al with
        | some c =>
          by_cases hc : c = ""
          · simp [hb, hc, List.find?]
          · simp [hb, hc, hbne c hc, List.find?]; try (split <;> rfl)
        | none => simp [hb, List.find?]
      · simp [hb, hbne b hb, List.find?]; try (split <;> rfl)
    | none =>
      cases al with
      | some c =>
        by_cases hc : c = ""
        · simp [hc, List.find?]
        · simp [hc, hbne c hc, List.find?]; try (split <;> rfl)
      | none => simp [List.find?]

end MusicOrganizer
